import Mathlib

/-!
Shallow embedding of the calculation model and schema layer of the
repository (app/models/calculation.py and app/schemas/calculation.py).

Python floats are modelled as rationals (ℚ); all arithmetic in the claims
under study is exact.  Python lists of numbers become `List ℚ`.  A Python
`raise ValueError(msg)` becomes an `Except.error` carrying an inductive
error value that records which of the three distinct messages of
app/models/calculation.py was raised.  The nullable `result` column of the
storage model becomes `Option ℚ`.
-/

deriving instance DecidableEq for Except

namespace CalcModel

/-- The four concrete calculation subclasses of app/models/calculation.py:
`Addition`, `Subtraction`, `Multiplication`, `Division`. -/
inductive CalcType where
  | addition
  | subtraction
  | multiplication
  | division
  deriving DecidableEq, Repr

/-- The `polymorphic_identity` discriminator string that SQLAlchemy stores in
the `type` column when an instance of the given subclass is constructed. -/
def typeTag : CalcType → String
  | .addition => "addition"
  | .subtraction => "subtraction"
  | .multiplication => "multiplication"
  | .division => "division"

/-- The distinct `ValueError`s raised in app/models/calculation.py:
`unsupportedType tag` is `ValueError(f"Unsupported calculation type: {tag}")`
(raised by `AbstractCalculation.create`), `invalidInputs` is
`ValueError("Inputs must be a list with at least two numbers.")` (raised by
each variant's `get_result`) and `divisionByZero` is
`ValueError("Cannot divide by zero.")` (raised by `Division.get_result`). -/
inductive CalcError where
  | unsupportedType (tag : String)
  | invalidInputs
  | divisionByZero
  deriving DecidableEq, Repr

/-- Python's `str.lower()` as used on the ASCII type tags: lower-case every
character of the string. -/
def pyLower (s : String) : String :=
  ⟨s.data.map Char.toLower⟩

/-- The message string carried by each `ValueError`. -/
def CalcError.message : CalcError → String
  | .unsupportedType tag => "Unsupported calculation type: " ++ tag
  | .invalidInputs => "Inputs must be a list with at least two numbers."
  | .divisionByZero => "Cannot divide by zero."

/-- The loop of `Addition.get_result`: Python `sum(self.inputs)`, a left fold
over the whole list with accumulator starting at 0. -/
def sumLoop : ℚ → List ℚ → ℚ
  | acc, [] => acc
  | acc, v :: rest => sumLoop (acc + v) rest

/-- The loop of `Subtraction.get_result`:
`result = self.inputs[0]; for value in self.inputs[1:]: result -= value`. -/
def subLoop : ℚ → List ℚ → ℚ
  | acc, [] => acc
  | acc, v :: rest => subLoop (acc - v) rest

/-- The loop of `Multiplication.get_result`:
`result = 1; for value in self.inputs: result *= value`. -/
def mulLoop : ℚ → List ℚ → ℚ
  | acc, [] => acc
  | acc, v :: rest => mulLoop (acc * v) rest

/-- The loop of `Division.get_result`:
`result = self.inputs[0]; for value in self.inputs[1:]:` with the guard
`if value == 0: raise ValueError("Cannot divide by zero.")` tested before
`result /= value` is executed. -/
def divLoop : ℚ → List ℚ → Except CalcError ℚ
  | acc, [] => .ok acc
  | acc, v :: rest =>
    if v = 0 then .error .divisionByZero else divLoop (acc / v) rest

/-- `Addition.get_result` (app/models/calculation.py lines 132–135).  The
`isinstance(self.inputs, list)` half of the guard is discharged by the type
`List ℚ`; the `len(self.inputs) < 2` half remains. -/
def Addition.get_result (inputs : List ℚ) : Except CalcError ℚ :=
  if inputs.length < 2 then .error .invalidInputs
  else .ok (sumLoop 0 inputs)

/-- `Subtraction.get_result` (app/models/calculation.py lines 142–148). -/
def Subtraction.get_result (inputs : List ℚ) : Except CalcError ℚ :=
  if inputs.length < 2 then .error .invalidInputs
  else .ok (subLoop inputs.headI inputs.tail)

/-- `Multiplication.get_result` (app/models/calculation.py lines 155–161). -/
def Multiplication.get_result (inputs : List ℚ) : Except CalcError ℚ :=
  if inputs.length < 2 then .error .invalidInputs
  else .ok (mulLoop 1 inputs)

/-- `Division.get_result` (app/models/calculation.py lines 168–176). -/
def Division.get_result (inputs : List ℚ) : Except CalcError ℚ :=
  if inputs.length < 2 then .error .invalidInputs
  else divLoop inputs.headI inputs.tail

/-- Dispatch from a variant to its `get_result` implementation. -/
def get_result : CalcType → List ℚ → Except CalcError ℚ
  | .addition, inputs => Addition.get_result inputs
  | .subtraction, inputs => Subtraction.get_result inputs
  | .multiplication, inputs => Multiplication.get_result inputs
  | .division, inputs => Division.get_result inputs

/-- The `calculation_classes` dictionary lookup inside
`AbstractCalculation.create` (lines 93–99): maps a (already lower-cased)
tag to the subclass, `none` when the tag is not a key. -/
def calculation_classes (tag : String) : Option CalcType :=
  if tag = "addition" then some .addition
  else if tag = "subtraction" then some .subtraction
  else if tag = "multiplication" then some .multiplication
  else if tag = "division" then some .division
  else none

/-- The in-memory `Calculation` record as built by the factory: `user_id`,
the discriminator `type` string, `inputs`, and the nullable `result` column
(`Column(Float, nullable=True)`, line 56–62).  `id` and the timestamps are
assigned by the persistence collaborator, not by `create`. -/
structure Calculation where
  user_id : Nat
  type : String
  inputs : List ℚ
  result : Option ℚ
  deriving DecidableEq, Repr

/-- The body of `create` after a successful dictionary lookup (lines
105–108): construct the subclass instance — which sets the discriminator to
the subclass's `polymorphic_identity` — then compute `get_result` and store
it in `result` before returning. -/
def createKnown (cls : CalcType) (user_id : Nat) (inputs : List ℚ) :
    Except CalcError Calculation :=
  match get_result cls inputs with
  | .error e => .error e
  | .ok r => .ok ⟨user_id, typeTag cls, inputs, some r⟩

/-- `AbstractCalculation.create` (app/models/calculation.py lines 86–108):
lower-case the tag, look it up in `calculation_classes`, raise
`ValueError(f"Unsupported calculation type: {calculation_type}")` on a
miss, otherwise build the instance with its result pre-computed. -/
def create (calculation_type : String) (user_id : Nat) (inputs : List ℚ) :
    Except CalcError Calculation :=
  match calculation_classes (pyLower calculation_type) with
  | none => .error (.unsupportedType calculation_type)
  | some cls => createKnown cls user_id inputs

end CalcModel

namespace CalcSchema

open CalcModel

/-- The validation errors of app/schemas/calculation.py: `invalidType` is the
`ValueError` of `validate_type`, `tooFewInputs` the
`"At least two numbers are required for calculation"` error (also raised by
the field's `min_length=2` constraint), `divisionByZero` the
`"Cannot divide by zero"` error of `validate_inputs`, and `missingResult`
the pydantic missing-field error for `CalculationRead.result`. -/
inductive SchemaError where
  | invalidType
  | tooFewInputs
  | divisionByZero
  | missingResult
  deriving DecidableEq, Repr

/-- The lookup of `validate_type`
(`allowed = {e.value for e in CalculationType}; v.lower() not in allowed`)
combined with pydantic's coercion of the returned lower-cased string into
the `CalculationType` enum.  Defined on the already lower-cased string. -/
def CalculationType.parse (s : String) : Option CalcType :=
  if s = "addition" then some .addition
  else if s = "subtraction" then some .subtraction
  else if s = "multiplication" then some .multiplication
  else if s = "division" then some .division
  else none

/-- A validated `CalculationBase` schema instance: the normalized type and
the inputs.  `check_inputs_is_list` (inputs must be a list) is discharged
by the type `List ℚ`. -/
structure CalculationBase where
  type : CalcType
  inputs : List ℚ
  deriving DecidableEq, Repr

/-- The `model_validator(mode='after')` `validate_inputs` of
`CalculationBase` (lines 59–70), run once the type field has parsed:
reject fewer than two inputs, and for division reject a zero anywhere in
`self.inputs[1:]` (the numerator `inputs[0]` is skipped). -/
def validateParsed (t : CalcType) (inputs : List ℚ) :
    Except SchemaError CalculationBase :=
  if inputs.length < 2 then .error .tooFewInputs
  else
    if t = CalcType.division then
      if inputs.tail.any (fun x => x == 0) then .error .divisionByZero
      else .ok ⟨t, inputs⟩
    else .ok ⟨t, inputs⟩

/-- Full validation of a raw `{type, inputs}` request by the
`CalculationBase` pydantic schema: `validate_type` (lower-case and check
membership in the four tags), then `validate_inputs`. -/
def CalculationBase.validate (typeRaw : String) (inputs : List ℚ) :
    Except SchemaError CalculationBase :=
  match CalculationType.parse (pyLower typeRaw) with
  | none => .error SchemaError.invalidType
  | some t => validateParsed t inputs

/-- A stored `calculations` row as the persistence collaborator returns it:
every mapped column of the model.  `result` is the only nullable column
(`Column(Float, nullable=True)`); a row not built via the factory can
therefore carry `none` there. -/
structure StoredCalculation where
  id : Nat
  user_id : Nat
  type : String
  inputs : List ℚ
  result : Option ℚ
  created_at : Nat
  updated_at : Nat
  deriving DecidableEq, Repr

/-- The `CalculationRead` schema (app/schemas/calculation.py lines
106–130): exactly `id`, `user_id`, `type`, `inputs`, `result`,
`created_at`, `updated_at`, with `result : float` non-optional. -/
structure CalculationRead where
  id : Nat
  user_id : Nat
  type : CalcType
  inputs : List ℚ
  result : ℚ
  created_at : Nat
  updated_at : Nat
  deriving DecidableEq, Repr

/-- Validating a stored row through `CalculationRead` with
`from_attributes=True`: the inherited `CalculationBase` validators run on
`type` and `inputs`, and the non-optional `result` field rejects a row
whose nullable `result` column is absent. -/
def serialize_for_read (c : StoredCalculation) :
    Except SchemaError CalculationRead :=
  match CalculationBase.validate c.type c.inputs with
  | .error e => .error e
  | .ok b =>
    match c.result with
    | none => .error SchemaError.missingResult
    | some r => .ok ⟨c.id, c.user_id, b.type, b.inputs, r, c.created_at, c.updated_at⟩

end CalcSchema

namespace CalcModel

/-! ### Helper lemmas about the loops -/

theorem sumLoop_eq_foldl (l : List ℚ) (acc : ℚ) :
    sumLoop acc l = List.foldl (· + ·) acc l := by
  induction l generalizing acc with
  | nil => rfl
  | cons v rest ih => simp [sumLoop, ih]

theorem subLoop_eq_foldl (l : List ℚ) (acc : ℚ) :
    subLoop acc l = List.foldl (· - ·) acc l := by
  induction l generalizing acc with
  | nil => rfl
  | cons v rest ih => simp [subLoop, ih]

theorem mulLoop_eq_foldl (l : List ℚ) (acc : ℚ) :
    mulLoop acc l = List.foldl (· * ·) acc l := by
  induction l generalizing acc with
  | nil => rfl
  | cons v rest ih => simp [mulLoop, ih]

theorem sumLoop_eq_sum (l : List ℚ) : sumLoop 0 l = l.sum := by
  rw [sumLoop_eq_foldl, List.sum_eq_foldl]

theorem mulLoop_eq_prod (l : List ℚ) : mulLoop 1 l = l.prod := by
  rw [mulLoop_eq_foldl, List.prod_eq_foldl]

/-- If no element of `l` is zero, `divLoop` completes and is the plain
division left fold. -/
theorem divLoop_ok (l : List ℚ) (acc : ℚ) (h : 0 ∉ l) :
    divLoop acc l = .ok (List.foldl (· / ·) acc l) := by
  induction l generalizing acc with
  | nil => rfl
  | cons v rest ih =>
    have hv : v ≠ 0 := fun hv => h (by simp [hv])
    have hrest : 0 ∉ rest := fun hm => h (by simp [hm])
    simp [divLoop, hv, ih _ hrest]

/-- If some element of `l` is zero, `divLoop` raises the
division-by-zero error. -/
theorem divLoop_err (l : List ℚ) (acc : ℚ) (h : 0 ∈ l) :
    divLoop acc l = .error .divisionByZero := by
  induction l generalizing acc with
  | nil => simp at h
  | cons v rest ih =>
    by_cases hv : v = 0
    · simp [divLoop, hv]
    · have hrest : 0 ∈ rest := by
        rcases List.mem_cons.mp h with h0 | h0
        · exact absurd h0.symm hv
        · exact h0
      simp [divLoop, hv, ih _ hrest]

/-- `divLoop` raises the division-by-zero error exactly when some element
of the divisor list is zero. -/
theorem divLoop_err_iff (l : List ℚ) (acc : ℚ) :
    divLoop acc l = .error .divisionByZero ↔ 0 ∈ l := by
  constructor
  · intro h
    by_contra hmem
    rw [divLoop_ok l acc hmem] at h
    exact Except.noConfusion h
  · exact divLoop_err l acc

/-- `divLoop` never raises the invalid-inputs error. -/
theorem divLoop_ne_invalid (l : List ℚ) (acc : ℚ) :
    divLoop acc l ≠ .error .invalidInputs := by
  induction l generalizing acc with
  | nil => simp [divLoop]
  | cons v rest ih =>
    by_cases hv : v = 0
    · simp [divLoop, hv]
    · simpa [divLoop, hv] using ih (acc / v)

/-- Successful `calculation_classes` lookups invert to the four tags. -/
theorem calculation_classes_eq_some (tag : String) (cls : CalcType)
    (h : calculation_classes tag = some cls) : tag = typeTag cls := by
  unfold calculation_classes at h
  by_cases h1 : tag = "addition"
  · simp [h1] at h; simp [h1, ← h, typeTag]
  · by_cases h2 : tag = "subtraction"
    · simp [h1, h2] at h; simp [h2, ← h, typeTag]
    · by_cases h3 : tag = "multiplication"
      · simp [h1, h2, h3] at h; simp [h3, ← h, typeTag]
      · by_cases h4 : tag = "division"
        · simp [h1, h2, h3, h4] at h; simp [h4, ← h, typeTag]
        · simp [h1, h2, h3, h4] at h

/-- Lookup of the canonical tag of each class succeeds. -/
theorem calculation_classes_typeTag (cls : CalcType) :
    calculation_classes (typeTag cls) = some cls := by
  cases cls <;> rfl

/-- When the lower-cased tag misses the dictionary, `create` raises
the unsupported-type error naming the original tag. -/
theorem create_unknown (tag : String) (uid : Nat) (inputs : List ℚ)
    (h : calculation_classes (pyLower tag) = none) :
    create tag uid inputs = .error (.unsupportedType tag) := by
  simp [create, h]

/-- When the lower-cased tag hits the dictionary, `create` runs the
variant construction. -/
theorem create_known (tag : String) (uid : Nat) (inputs : List ℚ)
    (cls : CalcType) (h : calculation_classes (pyLower tag) = some cls) :
    create tag uid inputs = createKnown cls uid inputs := by
  simp [create, h]

/-- Anatomy of a successful `createKnown`. -/
theorem createKnown_ok (cls : CalcType) (uid : Nat) (inputs : List ℚ)
    (c : Calculation) (h : createKnown cls uid inputs = .ok c) :
    ∃ r, get_result cls inputs = .ok r ∧ c = ⟨uid, typeTag cls, inputs, some r⟩ := by
  unfold createKnown at h
  cases hg : get_result cls inputs with
  | error e => rw [hg] at h; exact Except.noConfusion h
  | ok r =>
    rw [hg] at h
    exact ⟨r, rfl, (Except.ok.injEq _ _).mp h.symm⟩

/-- `createKnown` succeeds exactly when the variant computation does. -/
theorem createKnown_ok_iff (cls : CalcType) (uid : Nat) (inputs : List ℚ) :
    (∃ c, createKnown cls uid inputs = .ok c) ↔
      ∃ r, get_result cls inputs = .ok r := by
  constructor
  · rintro ⟨c, hc⟩
    obtain ⟨r, hr, _⟩ := createKnown_ok cls uid inputs c hc
    exact ⟨r, hr⟩
  · rintro ⟨r, hr⟩
    exact ⟨⟨uid, typeTag cls, inputs, some r⟩, by simp [createKnown, hr]⟩

/-- `createKnown` propagates the variant computation's error unchanged. -/
theorem createKnown_err_iff (cls : CalcType) (uid : Nat) (inputs : List ℚ)
    (e : CalcError) :
    createKnown cls uid inputs = .error e ↔ get_result cls inputs = .error e := by
  unfold createKnown
  cases hg : get_result cls inputs <;> simp

end CalcModel

namespace CalcModel

/-- The length guard in each variant: the invalid-inputs error is raised
exactly on lists shorter than two. -/
theorem get_result_invalid_iff (t : CalcType) (inputs : List ℚ) :
    get_result t inputs = .error .invalidInputs ↔ inputs.length < 2 := by
  by_cases h : inputs.length < 2 <;>
    cases t <;>
      simp [get_result, Addition.get_result, Subtraction.get_result,
        Multiplication.get_result, Division.get_result, h, divLoop_ne_invalid]

/-- Any variant computation succeeds on a list of length at least two whose
tail is zero-free in the division case. -/
theorem get_result_ok_of_len (t : CalcType) (inputs : List ℚ)
    (h2 : 2 ≤ inputs.length)
    (hz : t = CalcType.division → (0 : ℚ) ∉ inputs.tail) :
    ∃ r, get_result t inputs = .ok r := by
  have h : ¬ inputs.length < 2 := by omega
  cases t with
  | addition =>
    exact ⟨sumLoop 0 inputs, by simp [get_result, Addition.get_result, h]⟩
  | subtraction =>
    exact ⟨subLoop inputs.headI inputs.tail,
      by simp [get_result, Subtraction.get_result, h]⟩
  | multiplication =>
    exact ⟨mulLoop 1 inputs, by simp [get_result, Multiplication.get_result, h]⟩
  | division =>
    exact ⟨List.foldl (· / ·) inputs.headI inputs.tail,
      by simp [get_result, Division.get_result, h,
        divLoop_ok inputs.tail inputs.headI (hz rfl)]⟩

/-- `Division.get_result` raises division-by-zero exactly when the tail
holds a zero (given the length guard passes). -/
theorem get_result_div_err_iff (inputs : List ℚ) (h2 : 2 ≤ inputs.length) :
    get_result .division inputs = .error .divisionByZero ↔
      (0 : ℚ) ∈ inputs.tail := by
  have h : ¬ inputs.length < 2 := by omega
  simp [get_result, Division.get_result, h, divLoop_err_iff]

/-- The non-division variants never raise division-by-zero. -/
theorem get_result_nondiv_no_divzero (t : CalcType) (inputs : List ℚ)
    (ht : t ≠ CalcType.division) :
    get_result t inputs ≠ .error .divisionByZero := by
  cases t with
  | division => exact absurd rfl ht
  | addition =>
    by_cases h : inputs.length < 2 <;>
      simp [get_result, Addition.get_result, h]
  | subtraction =>
    by_cases h : inputs.length < 2 <;>
      simp [get_result, Subtraction.get_result, h]
  | multiplication =>
    by_cases h : inputs.length < 2 <;>
      simp [get_result, Multiplication.get_result, h]

/-- Zero occurs in the tail of a list exactly when some position of index
at least 1 holds zero. -/
theorem zero_mem_tail_iff (l : List ℚ) :
    (0 : ℚ) ∈ l.tail ↔ ∃ i, 1 ≤ i ∧ ∃ hi : i < l.length, l.get ⟨i, hi⟩ = 0 := by
  cases l with
  | nil =>
    constructor
    · intro h; simp at h
    · rintro ⟨i, -, hi, -⟩; exact absurd hi (by simp)
  | cons a t =>
    simp only [List.tail_cons, List.length_cons]
    rw [List.mem_iff_get]
    constructor
    · rintro ⟨⟨i, hi⟩, hget⟩
      refine ⟨i + 1, by omega, by omega, ?_⟩
      simpa using hget
    · rintro ⟨i, h1, hi, hget⟩
      obtain ⟨j, rfl⟩ : ∃ j, i = j + 1 := ⟨i - 1, by omega⟩
      exact ⟨⟨j, by omega⟩, by simpa using hget⟩

end CalcModel

namespace CalcSchema

open CalcModel

/-- A `Bool`-valued `any` scan for a zero element agrees with membership. -/
theorem any_beq_zero (l : List ℚ) :
    (l.any fun x => x == 0) = true ↔ (0 : ℚ) ∈ l := by
  rw [List.any_eq_true]
  constructor
  · rintro ⟨x, hx, hx0⟩
    rw [beq_iff_eq] at hx0
    rwa [hx0] at hx
  · intro h
    exact ⟨0, h, by simp⟩

/-- Successful `CalculationType.parse` lookups invert to the four tags. -/
theorem parse_eq_some (tag : String) (t : CalcType)
    (h : CalculationType.parse tag = some t) : tag = typeTag t := by
  unfold CalculationType.parse at h
  by_cases h1 : tag = "addition"
  · simp [h1] at h; simp [h1, ← h, typeTag]
  · by_cases h2 : tag = "subtraction"
    · simp [h1, h2] at h; simp [h2, ← h, typeTag]
    · by_cases h3 : tag = "multiplication"
      · simp [h1, h2, h3] at h; simp [h3, ← h, typeTag]
      · by_cases h4 : tag = "division"
        · simp [h1, h2, h3, h4] at h; simp [h4, ← h, typeTag]
        · simp [h1, h2, h3, h4] at h

/-- Parsing the canonical tag of each variant succeeds. -/
theorem parse_typeTag (t : CalcType) :
    CalculationType.parse (typeTag t) = some t := by
  cases t <;> rfl

/-- The engine's dictionary and the schema's enum accept the same tags. -/
theorem parse_eq_calculation_classes (tag : String) :
    CalculationType.parse tag = calculation_classes tag := by
  unfold CalculationType.parse calculation_classes
  rfl

/-- When the lower-cased tag parses, validation reduces to the
`validate_inputs` model validator. -/
theorem validate_known (raw : String) (inputs : List ℚ) (t : CalcType)
    (h : CalculationType.parse (pyLower raw) = some t) :
    CalculationBase.validate raw inputs = validateParsed t inputs := by
  simp [CalculationBase.validate, h]

/-- `validate_inputs` accepts exactly the well-shaped requests. -/
theorem validateParsed_ok (t : CalcType) (inputs : List ℚ)
    (h2 : 2 ≤ inputs.length)
    (hz : t = CalcType.division → (0 : ℚ) ∉ inputs.tail) :
    validateParsed t inputs = .ok ⟨t, inputs⟩ := by
  have h : ¬ inputs.length < 2 := by omega
  cases ht : t == CalcType.division
  · have ht' : t ≠ CalcType.division := by simpa using ht
    simp [validateParsed, h, ht']
  · have ht' : t = CalcType.division := by simpa using ht
    have : ¬ (inputs.tail.any fun x => x == 0) = true := by
      rw [any_beq_zero]; exact hz ht'
    simp [validateParsed, h, ht', this]

/-- Anatomy of a successful boundary validation. -/
theorem validateParsed_ok_inv (t : CalcType) (inputs : List ℚ)
    (b : CalculationBase) (h : validateParsed t inputs = .ok b) :
    b = ⟨t, inputs⟩ ∧ 2 ≤ inputs.length ∧
      (t = CalcType.division → (0 : ℚ) ∉ inputs.tail) := by
  unfold validateParsed at h
  by_cases hl : inputs.length < 2
  · simp [hl] at h
  · by_cases ht : t = CalcType.division
    · subst ht
      by_cases hz : (inputs.tail.any fun x => x == 0) = true
      · simp [hl, hz] at h
      · refine ⟨?_, by omega, fun _ => ?_⟩
        · simp [hl, hz] at h; exact h.symm
        · rw [← any_beq_zero]; exact hz
    · refine ⟨?_, by omega, fun h0 => absurd h0 ht⟩
      simp [hl, ht] at h; exact h.symm

/-- For a division request past the length guard, the boundary rejects
with division-by-zero exactly when the tail holds a zero. -/
theorem validateParsed_div_err_iff (inputs : List ℚ)
    (h2 : 2 ≤ inputs.length) :
    validateParsed .division inputs = .error .divisionByZero ↔
      (0 : ℚ) ∈ inputs.tail := by
  have h : ¬ inputs.length < 2 := by omega
  by_cases hz : (inputs.tail.any fun x => x == 0) = true
  · simp [validateParsed, h, hz, (any_beq_zero inputs.tail).mp hz]
  · have hmem := hz
    rw [any_beq_zero] at hmem
    simp [validateParsed, h, hz, hmem]

/-- The non-division variants are never rejected with division-by-zero. -/
theorem validateParsed_nondiv_no_divzero (t : CalcType) (inputs : List ℚ)
    (ht : t ≠ CalcType.division) :
    validateParsed t inputs ≠ .error .divisionByZero := by
  by_cases hl : inputs.length < 2 <;> simp [validateParsed, hl, ht]

end CalcSchema

namespace CalcSchema

open CalcModel

/-- Anatomy of a successful full boundary validation. -/
theorem validate_ok_inv (raw : String) (inputs : List ℚ)
    (b : CalculationBase) (h : CalculationBase.validate raw inputs = .ok b) :
    b = ⟨b.type, inputs⟩ ∧ pyLower raw = typeTag b.type ∧
      2 ≤ inputs.length ∧
      (b.type = CalcType.division → (0 : ℚ) ∉ inputs.tail) := by
  unfold CalculationBase.validate at h
  cases hp : CalculationType.parse (pyLower raw) with
  | none => rw [hp] at h; exact Except.noConfusion h
  | some t =>
    rw [hp] at h
    obtain ⟨hb, hlen, hz⟩ := validateParsed_ok_inv t inputs b h
    subst hb
    exact ⟨rfl, parse_eq_some _ _ hp, hlen, hz⟩

end CalcSchema

section Claims

open CalcModel CalcSchema

/-- Claim C1: every successful `create(type, owner_id, inputs)` returns a
record whose stored `result` equals the matching variant's `get_result`
recomputed over the stored `inputs`, and the record is never returned with
`type`/`inputs` set but `result` absent. -/
theorem claim_C1_create_result_recompute (tag : String) (uid : Nat)
    (inputs : List ℚ) (c : Calculation)
    (h : create tag uid inputs = Except.ok c) :
    ∃ t r, calculation_classes c.type = some t ∧ c.inputs = inputs ∧
      c.result = some r ∧ get_result t c.inputs = Except.ok r := by
  cases hcls : calculation_classes (pyLower tag) with
  | none =>
    rw [create_unknown tag uid inputs hcls] at h
    exact Except.noConfusion h
  | some cls =>
    rw [create_known tag uid inputs cls hcls] at h
    obtain ⟨r, hr, hc⟩ := createKnown_ok cls uid inputs c h
    subst hc
    exact ⟨cls, r, calculation_classes_typeTag cls, rfl, rfl, hr⟩

/-- Witness for claim C1 at `create('addition', 0, [1,2])`. -/
theorem claim_C1_witness :
    ∃ t r,
      calculation_classes
        ((⟨0, "addition", [1, 2], some (sumLoop 0 [1, 2])⟩ : Calculation)).type =
          some t ∧
      ((⟨0, "addition", [1, 2], some (sumLoop 0 [1, 2])⟩ : Calculation)).inputs = [1, 2] ∧
      ((⟨0, "addition", [1, 2], some (sumLoop 0 [1, 2])⟩ : Calculation)).result = some r ∧
      get_result t ((⟨0, "addition", [1, 2], some (sumLoop 0 [1, 2])⟩ : Calculation)).inputs =
        Except.ok r :=
  claim_C1_create_result_recompute "addition" 0 [1, 2] _ rfl

/-- Claim C2: for inputs of length at least 2, `create('division', ...)`
fails with the division-by-zero error exactly when some element at index
at least 1 is zero; a zero numerator is permitted
(`[0,5,2]` succeeds with result 0, `[100,0]` fails). -/
theorem claim_C2_division_zero_divisor (uid : Nat) (inputs : List ℚ)
    (h2 : 2 ≤ inputs.length) :
    (create "division" uid inputs = Except.error CalcError.divisionByZero ↔
      ∃ i, 1 ≤ i ∧ ∃ hi : i < inputs.length, inputs.get ⟨i, hi⟩ = 0) ∧
    (∃ c, create "division" uid [0, 5, 2] = Except.ok c ∧ c.result = some 0) ∧
    create "division" uid [100, 0] = Except.error CalcError.divisionByZero := by
  have hcls : calculation_classes (pyLower "division") = some CalcType.division := by
    decide
  refine ⟨?_, ?_, ?_⟩
  · rw [create_known "division" uid inputs CalcType.division hcls,
      createKnown_err_iff, get_result_div_err_iff inputs h2, zero_mem_tail_iff]
  · refine ⟨⟨uid, "division", [0, 5, 2], some 0⟩, ?_, rfl⟩
    rw [create_known "division" uid [0, 5, 2] CalcType.division hcls]
    norm_num [createKnown, get_result, Division.get_result, divLoop, typeTag]
  · rw [create_known "division" uid [100, 0] CalcType.division hcls,
      createKnown_err_iff]
    norm_num [get_result, Division.get_result, divLoop]

/-- Witness for claim C2 at `uid = 0`, `inputs = [1, 2]`. -/
theorem claim_C2_witness :
    2 ≤ ([1, 2] : List ℚ).length ∧
    ((create "division" 0 [1, 2] = Except.error CalcError.divisionByZero ↔
      ∃ i, 1 ≤ i ∧ ∃ hi : i < ([1, 2] : List ℚ).length,
        ([1, 2] : List ℚ).get ⟨i, hi⟩ = 0) ∧
    (∃ c, create "division" 0 [0, 5, 2] = Except.ok c ∧ c.result = some 0) ∧
    create "division" 0 [100, 0] = Except.error CalcError.divisionByZero) :=
  ⟨by decide, claim_C2_division_zero_divisor 0 [1, 2] (by decide)⟩

/-- Claim C3: a tag whose lower-cased form is not one of the four known
tags makes `create` fail with the unsupported-type error, whose message
names the offending tag; only the four variants are constructible through
the factory. -/
theorem claim_C3_unsupported_type (tag : String) (uid : Nat)
    (inputs : List ℚ)
    (h : pyLower tag ∉ ["addition", "subtraction", "multiplication", "division"]) :
    create tag uid inputs = Except.error (CalcError.unsupportedType tag) ∧
    (∃ pre post, (CalcError.unsupportedType tag).message = pre ++ tag ++ post) ∧
    ∀ (tag2 : String) (uid2 : Nat) (inputs2 : List ℚ) (c : Calculation),
      create tag2 uid2 inputs2 = Except.ok c →
      c.type ∈ ["addition", "subtraction", "multiplication", "division"] := by
  refine ⟨?_, ⟨"Unsupported calculation type: ", "", by simp [CalcError.message]⟩, ?_⟩
  · apply create_unknown
    have h1 : pyLower tag ≠ "addition" := fun he => h (by simp [he])
    have h2 : pyLower tag ≠ "subtraction" := fun he => h (by simp [he])
    have h3 : pyLower tag ≠ "multiplication" := fun he => h (by simp [he])
    have h4 : pyLower tag ≠ "division" := fun he => h (by simp [he])
    simp [calculation_classes, h1, h2, h3, h4]
  · intro tag2 uid2 inputs2 c hc
    cases hcls : calculation_classes (pyLower tag2) with
    | none =>
      rw [create_unknown tag2 uid2 inputs2 hcls] at hc
      exact Except.noConfusion hc
    | some cls =>
      rw [create_known tag2 uid2 inputs2 cls hcls] at hc
      obtain ⟨r, hr, hceq⟩ := createKnown_ok cls uid2 inputs2 c hc
      subst hceq
      cases cls <;> simp [typeTag]

/-- Witness for claim C3 at `create('modulus', 0, [10,3])`. -/
theorem claim_C3_witness :
    pyLower "modulus" ∉ ["addition", "subtraction", "multiplication", "division"] ∧
    (create "modulus" 0 [10, 3] = Except.error (CalcError.unsupportedType "modulus") ∧
    (∃ pre post, (CalcError.unsupportedType "modulus").message = pre ++ "modulus" ++ post) ∧
    ∀ (tag2 : String) (uid2 : Nat) (inputs2 : List ℚ) (c : Calculation),
      create tag2 uid2 inputs2 = Except.ok c →
      c.type ∈ ["addition", "subtraction", "multiplication", "division"]) :=
  ⟨by decide, claim_C3_unsupported_type "modulus" 0 [10, 3] (by decide)⟩

/-- Claim C4: for inputs of length at least 2, the Addition variant stores
the sum of all elements and the Multiplication variant the product of all
elements with starting accumulator 1; `[1,2,3]` adds to 6 and `[3,4,2]`
multiplies to 24. -/
theorem claim_C4_addition_multiplication (uid : Nat) (inputs : List ℚ)
    (h2 : 2 ≤ inputs.length) :
    (∃ c, create "addition" uid inputs = Except.ok c ∧
      c.result = some inputs.sum) ∧
    (∃ c, create "multiplication" uid inputs = Except.ok c ∧
      c.result = some inputs.prod) ∧
    (∃ c, create "addition" uid [1, 2, 3] = Except.ok c ∧ c.result = some 6) ∧
    (∃ c, create "multiplication" uid [3, 4, 2] = Except.ok c ∧
      c.result = some 24) := by
  have hA : calculation_classes (pyLower "addition") = some CalcType.addition := by
    decide
  have hM : calculation_classes (pyLower "multiplication") =
      some CalcType.multiplication := by decide
  have h : ¬ inputs.length < 2 := by omega
  refine ⟨⟨⟨uid, "addition", inputs, some inputs.sum⟩, ?_, rfl⟩,
    ⟨⟨uid, "multiplication", inputs, some inputs.prod⟩, ?_, rfl⟩,
    ⟨⟨uid, "addition", [1, 2, 3], some 6⟩, ?_, rfl⟩,
    ⟨⟨uid, "multiplication", [3, 4, 2], some 24⟩, ?_, rfl⟩⟩
  · rw [create_known "addition" uid inputs CalcType.addition hA]
    simp [createKnown, get_result, Addition.get_result, h, typeTag,
      sumLoop_eq_sum]
  · rw [create_known "multiplication" uid inputs CalcType.multiplication hM]
    simp [createKnown, get_result, Multiplication.get_result, h, typeTag,
      mulLoop_eq_prod]
  · rw [create_known "addition" uid [1, 2, 3] CalcType.addition hA]
    norm_num [createKnown, get_result, Addition.get_result, sumLoop, typeTag]
  · rw [create_known "multiplication" uid [3, 4, 2] CalcType.multiplication hM]
    norm_num [createKnown, get_result, Multiplication.get_result, mulLoop,
      typeTag]

/-- Witness for claim C4 at `uid = 0`, `inputs = [5, 7]`. -/
theorem claim_C4_witness :
    2 ≤ ([5, 7] : List ℚ).length ∧
    ((∃ c, create "addition" 0 [5, 7] = Except.ok c ∧
      c.result = some ([5, 7] : List ℚ).sum) ∧
    (∃ c, create "multiplication" 0 [5, 7] = Except.ok c ∧
      c.result = some ([5, 7] : List ℚ).prod) ∧
    (∃ c, create "addition" 0 [1, 2, 3] = Except.ok c ∧ c.result = some 6) ∧
    (∃ c, create "multiplication" 0 [3, 4, 2] = Except.ok c ∧
      c.result = some 24)) :=
  ⟨by decide, claim_C4_addition_multiplication 0 [5, 7] (by decide)⟩

/-- Claim C5: the Subtraction variant stores the left fold that starts at
the first input and subtracts each later element in order, the Division
variant the left fold that starts at the first input and divides by each
later element in order (absent zero divisors); the folds are
order-sensitive: `[10,4]` gives 6 and `[4,10]` gives -6. -/
theorem claim_C5_subtraction_division_fold (uid : Nat) (inputs : List ℚ)
    (h2 : 2 ≤ inputs.length) :
    (∃ c, create "subtraction" uid inputs = Except.ok c ∧
      c.result = some (List.foldl (· - ·) inputs.headI inputs.tail)) ∧
    ((0 : ℚ) ∉ inputs.tail →
      ∃ c, create "division" uid inputs = Except.ok c ∧
        c.result = some (List.foldl (· / ·) inputs.headI inputs.tail)) ∧
    (∃ c, create "subtraction" uid [10, 4] = Except.ok c ∧
      c.result = some 6) ∧
    (∃ c, create "subtraction" uid [4, 10] = Except.ok c ∧
      c.result = some (-6)) := by
  have hS : calculation_classes (pyLower "subtraction") =
      some CalcType.subtraction := by decide
  have hD : calculation_classes (pyLower "division") = some CalcType.division := by
    decide
  have h : ¬ inputs.length < 2 := by omega
  refine ⟨⟨⟨uid, "subtraction", inputs,
      some (List.foldl (· - ·) inputs.headI inputs.tail)⟩, ?_, rfl⟩,
    fun hz => ⟨⟨uid, "division", inputs,
      some (List.foldl (· / ·) inputs.headI inputs.tail)⟩, ?_, rfl⟩,
    ⟨⟨uid, "subtraction", [10, 4], some 6⟩, ?_, rfl⟩,
    ⟨⟨uid, "subtraction", [4, 10], some (-6)⟩, ?_, rfl⟩⟩
  · rw [create_known "subtraction" uid inputs CalcType.subtraction hS]
    simp [createKnown, get_result, Subtraction.get_result, h, typeTag,
      subLoop_eq_foldl]
  · rw [create_known "division" uid inputs CalcType.division hD]
    simp [createKnown, get_result, Division.get_result, h, typeTag,
      divLoop_ok inputs.tail inputs.headI hz]
  · rw [create_known "subtraction" uid [10, 4] CalcType.subtraction hS]
    norm_num [createKnown, get_result, Subtraction.get_result, subLoop, typeTag]
  · rw [create_known "subtraction" uid [4, 10] CalcType.subtraction hS]
    norm_num [createKnown, get_result, Subtraction.get_result, subLoop, typeTag]

/-- Witness for claim C5 at `uid = 0`, `inputs = [10, 4]`. -/
theorem claim_C5_witness :
    2 ≤ ([10, 4] : List ℚ).length ∧
    ((∃ c, create "subtraction" 0 [10, 4] = Except.ok c ∧
      c.result = some (List.foldl (· - ·) ([10, 4] : List ℚ).headI
        ([10, 4] : List ℚ).tail)) ∧
    ((0 : ℚ) ∉ ([10, 4] : List ℚ).tail →
      ∃ c, create "division" 0 [10, 4] = Except.ok c ∧
        c.result = some (List.foldl (· / ·) ([10, 4] : List ℚ).headI
          ([10, 4] : List ℚ).tail)) ∧
    (∃ c, create "subtraction" 0 [10, 4] = Except.ok c ∧
      c.result = some 6) ∧
    (∃ c, create "subtraction" 0 [4, 10] = Except.ok c ∧
      c.result = some (-6))) :=
  ⟨by decide, claim_C5_subtraction_division_fold 0 [10, 4] (by decide)⟩

/-- Claim C6: each variant's `get_result`, invoked directly, re-validates
its inputs and fails with the invalid-inputs error when the list is
shorter than two; on inputs that passed boundary validation this branch
is unreachable. -/
theorem claim_C6_engine_revalidation (t : CalcType) (inputs : List ℚ) :
    (inputs.length < 2 →
      get_result t inputs = Except.error CalcError.invalidInputs) ∧
    (∀ (typeRaw : String) (b : CalculationBase),
      CalculationBase.validate typeRaw inputs = Except.ok b →
      get_result t inputs ≠ Except.error CalcError.invalidInputs) := by
  refine ⟨fun h => (get_result_invalid_iff t inputs).mpr h, ?_⟩
  intro typeRaw b hb hbad
  have hlen : 2 ≤ inputs.length := (validate_ok_inv typeRaw inputs b hb).2.2.1
  rw [get_result_invalid_iff] at hbad
  omega

/-- Witness for claim C6 at the Addition variant on the empty list. -/
theorem claim_C6_witness :
    (([] : List ℚ).length < 2 →
      get_result CalcType.addition [] = Except.error CalcError.invalidInputs) ∧
    (∀ (typeRaw : String) (b : CalculationBase),
      CalculationBase.validate typeRaw [] = Except.ok b →
      get_result CalcType.addition [] ≠ Except.error CalcError.invalidInputs) :=
  claim_C6_engine_revalidation CalcType.addition []

/-- Claim C7: for a known type tag and inputs of length at least 2, the
boundary schema accepts exactly when the corresponding variant's
computation succeeds, and both layers raise the division-by-zero error on
exactly the same inputs. -/
theorem claim_C7_two_layer_agreement (tagRaw : String) (t : CalcType)
    (inputs : List ℚ)
    (ht : CalculationType.parse (pyLower tagRaw) = some t)
    (h2 : 2 ≤ inputs.length) :
    ((∃ b, CalculationBase.validate tagRaw inputs = Except.ok b) ↔
      (∃ r, get_result t inputs = Except.ok r)) ∧
    (CalculationBase.validate tagRaw inputs =
        Except.error SchemaError.divisionByZero ↔
      get_result t inputs = Except.error CalcError.divisionByZero) := by
  rw [validate_known tagRaw inputs t ht]
  constructor
  · constructor
    · rintro ⟨b, hb⟩
      exact get_result_ok_of_len t inputs h2 (validateParsed_ok_inv t inputs b hb).2.2
    · rintro ⟨r, hr⟩
      have hz : t = CalcType.division → (0 : ℚ) ∉ inputs.tail := by
        intro htd hmem
        subst htd
        rw [(get_result_div_err_iff inputs h2).mpr hmem] at hr
        exact Except.noConfusion hr
      exact ⟨⟨t, inputs⟩, validateParsed_ok t inputs h2 hz⟩
  · by_cases htd : t = CalcType.division
    · subst htd
      rw [validateParsed_div_err_iff inputs h2, get_result_div_err_iff inputs h2]
    · constructor
      · intro hv
        exact absurd hv (validateParsed_nondiv_no_divzero t inputs htd)
      · intro hg
        exact absurd hg (get_result_nondiv_no_divzero t inputs htd)

/-- Witness for claim C7 at tag `"DIVISION"`, inputs `[100, 2]`. -/
theorem claim_C7_witness :
    CalculationType.parse (pyLower "DIVISION") = some CalcType.division ∧
    2 ≤ ([100, 2] : List ℚ).length ∧
    (((∃ b, CalculationBase.validate "DIVISION" [100, 2] = Except.ok b) ↔
      (∃ r, get_result CalcType.division [100, 2] = Except.ok r)) ∧
    (CalculationBase.validate "DIVISION" [100, 2] =
        Except.error SchemaError.divisionByZero ↔
      get_result CalcType.division [100, 2] =
        Except.error CalcError.divisionByZero)) :=
  ⟨by decide, by decide,
    claim_C7_two_layer_agreement "DIVISION" CalcType.division [100, 2]
      (by decide) (by decide)⟩

/-- Claim C8: type-tag matching is case-insensitive in both layers: a tag
whose lower-cased form is one of the four known tags behaves exactly like
its lower-cased form under both the factory and boundary validation. -/
theorem claim_C8_case_insensitive (tag : String) (uid : Nat)
    (inputs : List ℚ)
    (h : pyLower tag ∈ ["addition", "subtraction", "multiplication", "division"]) :
    create tag uid inputs = create (pyLower tag) uid inputs ∧
    CalculationBase.validate tag inputs =
      CalculationBase.validate (pyLower tag) inputs := by
  simp only [List.mem_cons, List.not_mem_nil, or_false] at h
  rcases h with hl | hl | hl | hl
  · exact ⟨by rw [create_known tag uid inputs CalcType.addition (by rw [hl]; rfl),
        create_known (pyLower tag) uid inputs CalcType.addition (by rw [hl]; decide)],
      by rw [validate_known tag inputs CalcType.addition (by rw [hl]; rfl),
        validate_known (pyLower tag) inputs CalcType.addition (by rw [hl]; decide)]⟩
  · exact ⟨by rw [create_known tag uid inputs CalcType.subtraction (by rw [hl]; rfl),
        create_known (pyLower tag) uid inputs CalcType.subtraction (by rw [hl]; decide)],
      by rw [validate_known tag inputs CalcType.subtraction (by rw [hl]; rfl),
        validate_known (pyLower tag) inputs CalcType.subtraction (by rw [hl]; decide)]⟩
  · exact ⟨by rw [create_known tag uid inputs CalcType.multiplication (by rw [hl]; rfl),
        create_known (pyLower tag) uid inputs CalcType.multiplication (by rw [hl]; decide)],
      by rw [validate_known tag inputs CalcType.multiplication (by rw [hl]; rfl),
        validate_known (pyLower tag) inputs CalcType.multiplication (by rw [hl]; decide)]⟩
  · exact ⟨by rw [create_known tag uid inputs CalcType.division (by rw [hl]; rfl),
        create_known (pyLower tag) uid inputs CalcType.division (by rw [hl]; decide)],
      by rw [validate_known tag inputs CalcType.division (by rw [hl]; rfl),
        validate_known (pyLower tag) inputs CalcType.division (by rw [hl]; decide)]⟩

/-- Witness for claim C8 at tag `"ADDITION"`, inputs `[1, 2]`. -/
theorem claim_C8_witness :
    pyLower "ADDITION" ∈ ["addition", "subtraction", "multiplication", "division"] ∧
    (create "ADDITION" 0 [1, 2] = create (pyLower "ADDITION") 0 [1, 2] ∧
    CalculationBase.validate "ADDITION" [1, 2] =
      CalculationBase.validate (pyLower "ADDITION") [1, 2]) :=
  ⟨by decide, claim_C8_case_insensitive "ADDITION" 0 [1, 2] (by decide)⟩

/-- Claim C9: the read-model serialization of a stored row exposes exactly
`id`, `user_id`, `type`, `inputs`, `result`, `created_at`, `updated_at`,
and fails whenever the nullable `result` column is absent. -/
theorem claim_C9_read_serialization (c : StoredCalculation) :
    (c.result = none → ∀ rm, serialize_for_read c ≠ Except.ok rm) ∧
    (∀ rm, serialize_for_read c = Except.ok rm →
      rm.id = c.id ∧ rm.user_id = c.user_id ∧
      typeTag rm.type = pyLower c.type ∧ rm.inputs = c.inputs ∧
      c.result = some rm.result ∧ rm.created_at = c.created_at ∧
      rm.updated_at = c.updated_at) := by
  cases hv : CalculationBase.validate c.type c.inputs with
  | error e =>
    exact ⟨fun _ rm hr => by simp [serialize_for_read, hv] at hr,
      fun rm hr => by simp [serialize_for_read, hv] at hr⟩
  | ok b =>
    obtain ⟨hb, htag, -, -⟩ := validate_ok_inv c.type c.inputs b hv
    cases hres : c.result with
    | none =>
      exact ⟨fun _ rm hr => by simp [serialize_for_read, hv, hres] at hr,
        fun rm hr => by simp [serialize_for_read, hv, hres] at hr⟩
    | some r =>
      refine ⟨fun habs rm hr => Option.noConfusion habs, fun rm hr => ?_⟩
      have hrm : rm = ⟨c.id, c.user_id, b.type, b.inputs, r, c.created_at,
          c.updated_at⟩ := by
        simp [serialize_for_read, hv, hres] at hr
        exact hr.symm
      subst hrm
      refine ⟨rfl, rfl, htag.symm, ?_, rfl, rfl, rfl⟩
      rw [hb]

/-- Witness for claim C9 at a stored row with an absent result. -/
theorem claim_C9_witness :
    ((⟨1, 2, "addition", [1, 2], none, 3, 4⟩ : StoredCalculation).result = none →
      ∀ rm, serialize_for_read ⟨1, 2, "addition", [1, 2], none, 3, 4⟩ ≠
        Except.ok rm) ∧
    (∀ rm, serialize_for_read
        (⟨1, 2, "addition", [1, 2], none, 3, 4⟩ : StoredCalculation) =
        Except.ok rm →
      rm.id = 1 ∧ rm.user_id = 2 ∧
      typeTag rm.type = pyLower "addition" ∧ rm.inputs = [1, 2] ∧
      (none : Option ℚ) = some rm.result ∧ rm.created_at = 3 ∧
      rm.updated_at = 4) :=
  claim_C9_read_serialization ⟨1, 2, "addition", [1, 2], none, 3, 4⟩

/-- Claim C10: inside `Division.get_result` every divisor is tested for
zero before the division happens: with no zero past the numerator the
computation is total and returns the left-fold quotient, and with a zero
present the division-by-zero error arises at the first zero divisor,
independently of everything that follows it. -/
theorem claim_C10_division_guard (inputs : List ℚ) (h2 : 2 ≤ inputs.length) :
    ((0 : ℚ) ∉ inputs.tail →
      Division.get_result inputs =
        Except.ok (List.foldl (· / ·) inputs.headI inputs.tail)) ∧
    (∀ pre post, inputs.tail = pre ++ 0 :: post → (0 : ℚ) ∉ pre →
      Division.get_result inputs = Except.error CalcError.divisionByZero ∧
      ∀ post2, divLoop inputs.headI (pre ++ 0 :: post2) =
        Except.error CalcError.divisionByZero) := by
  have h : ¬ inputs.length < 2 := by omega
  constructor
  · intro hz
    simp [Division.get_result, h, divLoop_ok inputs.tail inputs.headI hz]
  · intro pre post heq hpre
    have herr : ∀ post2, divLoop inputs.headI (pre ++ 0 :: post2) =
        Except.error CalcError.divisionByZero := fun post2 =>
      divLoop_err _ _ (by simp)
    exact ⟨by simp [Division.get_result, h, heq, herr post], herr⟩

/-- Witness for claim C10 at `inputs = [100, 0]`. -/
theorem claim_C10_witness :
    2 ≤ ([100, 0] : List ℚ).length ∧
    (((0 : ℚ) ∉ ([100, 0] : List ℚ).tail →
      Division.get_result [100, 0] =
        Except.ok (List.foldl (· / ·) ([100, 0] : List ℚ).headI
          ([100, 0] : List ℚ).tail)) ∧
    (∀ pre post, ([100, 0] : List ℚ).tail = pre ++ 0 :: post →
      (0 : ℚ) ∉ pre →
      Division.get_result [100, 0] = Except.error CalcError.divisionByZero ∧
      ∀ post2, divLoop ([100, 0] : List ℚ).headI (pre ++ 0 :: post2) =
        Except.error CalcError.divisionByZero)) :=
  ⟨by decide, claim_C10_division_guard [100, 0] (by decide)⟩

end Claims
